import Mathlib

/-
Verification of the dd-trace-cpp trace lifecycle engine against its
natural-language specification.

The development shallowly embeds the relevant parts of the C++ source:

  * `src/datadog/tags.cpp`           -> tag name constants, `is_internal`
  * `src/datadog/span_data.cpp`      -> `SpanData.apply_config`, `msgpack_encode`
  * `src/datadog/span_sampler_config.cpp` (part_000)
                                     -> `parse_rules`, `finalize_config`
  * configuration parsing (DD_TAGS, booleans, propagation styles), the
    propagation codec and the trace-segment finalization steps are not in the
    provided sources; those are modelled from the specification, as marked in
    their doc comments.

C++ `std::unordered_map` values are embedded as association lists with unique
keys, written with `assocLookup` / `insertOrAssign`; the insertion order of an
association list is irrelevant to every property proved here, matching the
unordered container.  C++ `double` values that can be NaN or infinite are
embedded as the inductive type `DVal` (a rational together with the special
IEEE classes); machine integers are embedded as `Nat` / `Int` (no arithmetic
here comes close to overflow).
-/

namespace DdTrace

/-- Look up a key in an association list (the embedding of
`std::unordered_map::find`). -/
def assocLookup {α : Type} : List (String × α) → String → Option α
  | [], _ => none
  | (k2, v) :: rest, k => if k2 = k then some v else assocLookup rest k

/-- Character-wise string prefix test, the embedding of `starts_with` from
`parse_util.h`. -/
def strStartsWith (pre s : String) : Bool :=
  List.isPrefixOf pre.toList s.toList

/-- Insert-or-overwrite a key (the embedding of
`std::unordered_map::insert_or_assign` / `operator[]=`). -/
def insertOrAssign {α : Type} : List (String × α) → String → α → List (String × α)
  | [], k, v => [(k, v)]
  | (k2, v2) :: rest, k, v =>
    if k2 = k then (k2, v) :: rest else (k2, v2) :: insertOrAssign rest k v

theorem assocLookup_insertOrAssign_self {α : Type} (m : List (String × α)) (k : String) (v : α) :
    assocLookup (insertOrAssign m k v) k = some v := by
  induction m with
  | nil => simp [insertOrAssign, assocLookup]
  | cons hd tl ih =>
    obtain ⟨k2, v2⟩ := hd
    by_cases h : k2 = k
    · simp [insertOrAssign, assocLookup, h]
    · simp [insertOrAssign, assocLookup, h, ih]

theorem assocLookup_insertOrAssign_ne {α : Type} (m : List (String × α)) (k k2 : String) (v : α)
    (h : k2 ≠ k) : assocLookup (insertOrAssign m k2 v) k = assocLookup m k := by
  induction m with
  | nil => simp [insertOrAssign, assocLookup, h]
  | cons hd tl ih =>
    obtain ⟨k3, v3⟩ := hd
    by_cases h3 : k3 = k2
    · subst h3
      simp [insertOrAssign, assocLookup, h]
    · by_cases h4 : k3 = k
      · simp [insertOrAssign, assocLookup, h3, h4, Ne.symm h]
      · simp [insertOrAssign, assocLookup, h3, h4, ih]

/-! ## Tag names (src/datadog/tags.cpp) -/

namespace tags

def environment : String := "env"
def version : String := "version"

namespace internal

def propagation_error : String := "_dd.propagation_error"
def decision_maker : String := "_dd.p.dm"
def origin : String := "_dd.origin"
def hostname : String := "_dd.hostname"
def sampling_priority : String := "_sampling_priority_v1"
def rule_sample_rate : String := "_dd.rule_psr"
def rule_limiter_sample_rate : String := "_dd.limit_psr"
def agent_sample_rate : String := "_dd.agent_psr"

end internal

/-- Embedding of `tags::is_internal` from `src/datadog/tags.cpp`: a tag name is
reserved for the library exactly when it starts with the string
underscore-d-d-dot. -/
def is_internal (tag_name : String) : Bool :=
  strStartsWith "_dd." tag_name

end tags

/-! ## Span data (src/datadog/span_data.h, span_data.cpp) -/

/-- Span defaults, per `span_defaults.h` as used by `SpanData::apply_config`. -/
structure SpanDefaults where
  service : String := ""
  service_type : String := ""
  name : String := ""
  environment : String := ""
  version : String := ""
  tags : List (String × String) := []
deriving Repr, DecidableEq

/-- Span configuration, per `span_config.h` as used by `SpanData::apply_config`.
Time points are embedded as integer nanosecond counts. -/
structure SpanConfig where
  service : Option String := none
  service_type : Option String := none
  name : Option String := none
  resource : Option String := none
  environment : Option String := none
  version : Option String := none
  start : Option Int := none
  tags : List (String × String) := []
deriving Repr, DecidableEq

/-- Embedding of `struct SpanData` from `span_data.h`.  `start` is the wall
part of the C++ `TimePoint` in nanoseconds since the epoch; `duration` is in
nanoseconds.  Numeric tag values (`double` in C++) are embedded as rationals:
none of the claims proved here manufactures NaN or infinite tag values. -/
structure SpanData where
  service : String := ""
  service_type : String := ""
  name : String := ""
  resource : String := ""
  trace_id : Nat := 0
  span_id : Nat := 0
  parent_id : Nat := 0
  start : Int := 0
  duration : Int := 0
  error : Bool := false
  tags : List (String × String) := []
  numeric_tags : List (String × Rat) := []
deriving Repr, DecidableEq

/-- Embedding of the tag loop at the end of `SpanData::apply_config`
(`span_data.cpp` lines 50-54): each user-supplied tag is inserted unless its
key is reserved (`tags::is_internal`). -/
def applyUserTags (acc : List (String × String)) : List (String × String) → List (String × String)
  | [] => acc
  | (k, v) :: rest =>
    applyUserTags (if tags.is_internal k then acc else insertOrAssign acc k v) rest

/-- Embedding of `SpanData::apply_config` from `span_data.cpp` lines 36-63.
The clock is embedded as the nanosecond time it would return. -/
def SpanData.apply_config (span : SpanData) (defaults : SpanDefaults)
    (config : SpanConfig) (clock : Int) : SpanData :=
  let name := config.name.getD defaults.name
  let tags0 := defaults.tags
  let env := config.environment.getD defaults.environment
  let tags1 := if env ≠ "" then insertOrAssign tags0 tags.environment env else tags0
  let vers := config.version.getD defaults.version
  let tags2 := if vers ≠ "" then insertOrAssign tags1 tags.version vers else tags1
  let tags3 := applyUserTags tags2 config.tags
  { span with
    service := config.service.getD defaults.service
    name := name
    tags := tags3
    resource := config.resource.getD name
    service_type := config.service_type.getD defaults.service_type
    start := config.start.getD clock }

/-! ## MessagePack encoding of a span (span_data.cpp `msgpack_encode`)

The MessagePack byte-level encoder (`msgpack.cpp`) is an out-of-scope
collaborator per the specification; the encoding is embedded at the level of
the abstract MessagePack values that `msgpack_encode` emits: the exact map
keys, their order, and the shape of each value. -/

inductive MpValue : Type
  | str (s : String)
  | int (n : Int)
  | mapStr (entries : List (String × String))
  | mapFloat (entries : List (String × Rat))
deriving Repr, DecidableEq

/-- Embedding of `msgpack_encode(destination, span)` from `span_data.cpp`
lines 65-126: the map entries, in the order the source packs them. -/
def msgpack_encode (span : SpanData) : List (String × MpValue) :=
  [ ("service", MpValue.str span.service)
  , ("name", MpValue.str span.name)
  , ("resource", MpValue.str span.resource)
  , ("trace_id", MpValue.int span.trace_id)
  , ("span_id", MpValue.int span.span_id)
  , ("parent_id", MpValue.int span.parent_id)
  , ("start", MpValue.int span.start)
  , ("duration", MpValue.int span.duration)
  , ("error", MpValue.int (if span.error then 1 else 0))
  , ("meta", MpValue.mapStr span.tags)
  , ("metrics", MpValue.mapFloat span.numeric_tags)
  , ("type", MpValue.str span.service_type) ]

/-! ## List-valued configuration strings

Modelled from the spec: several environment variables hold "comma- and/or
space-separated" lists (DD_TAGS, the propagation style variables).  The
tokenizer below (`parse_list`) is the missing `parse_util.cpp`: it strips
surrounding whitespace, then repeatedly takes a token up to the next comma or
whitespace and consumes one separator (any whitespace, then at most one comma,
then any whitespace).  Consecutive commas, or a trailing comma, therefore
yield an empty token, as the unit tests in test/tracer_config.cpp require. -/

def isSpaceChar (c : Char) : Bool :=
  c = ' ' || c = '\t' || c = '\n' || c = '\x0b' || c = '\x0c' || c = '\r'

def isListDelim (c : Char) : Bool :=
  isSpaceChar c || c = ','

/-- Strip leading and trailing whitespace from a character list. -/
def stripChars (cs : List Char) : List Char :=
  ((cs.dropWhile isSpaceChar).reverse.dropWhile isSpaceChar).reverse

/-- Worker for `parse_list`; `fuel` bounds the recursion (one unit per token,
`length + 1` always suffices because each step consumes at least one
character). -/
def parseListAux : Nat → List Char → List (List Char)
  | 0, _ => []
  | fuel + 1, cs =>
    let tok := cs.takeWhile (fun c => !(isListDelim c))
    let rest := cs.dropWhile (fun c => !(isListDelim c))
    match rest with
    | [] => [tok]
    | _ :: _ =>
      let r1 := rest.dropWhile isSpaceChar
      let r2 := match r1 with
        | ',' :: t => t.dropWhile isSpaceChar
        | other => other
      tok :: parseListAux fuel r2

/-- Modelled from the spec: tokenize a comma- and/or space-separated list. -/
def parse_list (s : String) : List String :=
  let cs := stripChars s.toList
  if cs.isEmpty then []
  else (parseListAux (cs.length + 1) cs).map (fun t => String.mk t)

/-! ## Error codes (error.h) -/

inductive ECode : Type
  | SERVICE_NAME_REQUIRED
  | TAG_MISSING_SEPARATOR
  | RATE_OUT_OF_RANGE
  | MAX_PER_SECOND_OUT_OF_RANGE
  | UNKNOWN_PROPAGATION_STYLE
  | SPAN_SAMPLING_RULES_INVALID_JSON
  | SPAN_SAMPLING_RULES_WRONG_TYPE
  | SPAN_SAMPLING_RULES_SAMPLE_RATE_WRONG_TYPE
  | SPAN_SAMPLING_RULES_MAX_PER_SECOND_WRONG_TYPE
  | SPAN_SAMPLING_RULES_UNKNOWN_PROPERTY
  | SPAN_SAMPLING_RULES_FILE_IO
  | RULE_WRONG_TYPE
  | RULE_PROPERTY_WRONG_TYPE
  | RULE_TAG_WRONG_TYPE
deriving Repr, DecidableEq

/-! ## DD_TAGS parsing (configuration finalization)

Modelled from the spec: DD_TAGS holds comma- or space-separated `k:v` pairs; a
token with no `:` is a `TAG_MISSING_SEPARATOR` error; on duplicate keys the
last write wins.  The unit tests (test/tracer_config.cpp, "DD_TAGS" section)
further pin down that the parsed pairs REPLACE the programmatically configured
default tags rather than merging with them. -/

/-- Split a token at its first colon: `"k:v"` to `(k, v)`; `none` when the
token has no colon. -/
def splitAtColon : List Char → Option (List Char × List Char)
  | [] => none
  | c :: rest =>
    if c = ':' then some ([], rest)
    else
      match splitAtColon rest with
      | none => none
      | some (k, v) => some (c :: k, v)

/-- Parse one DD_TAGS token into a key-value pair. -/
def parseTagToken (t : String) : Option (String × String) :=
  match splitAtColon t.toList with
  | none => none
  | some (k, v) => some (String.mk k, String.mk v)

/-- Fold the DD_TAGS tokens into a map, last write wins; error on a token with
no colon. -/
def parseTagsTokens : List String → List (String × String) →
    Except ECode (List (String × String))
  | [], acc => Except.ok acc
  | t :: ts, acc =>
    match parseTagToken t with
    | none => Except.error ECode.TAG_MISSING_SEPARATOR
    | some (k, v) => parseTagsTokens ts (insertOrAssign acc k v)

/-- Modelled from the spec: the effective default tags after configuration
finalization, given the programmatic `config_tags` and the optional DD_TAGS
environment value (the finalization code `tracer_config.cpp` is not among the
provided sources; the replacement semantics follow its unit tests). -/
def finalize_default_tags (config_tags : List (String × String))
    (dd_tags : Option String) : Except ECode (List (String × String)) :=
  match dd_tags with
  | none => Except.ok config_tags
  | some s => parseTagsTokens (parse_list s) []

/-! ## Boolean environment variables

Modelled from the spec: case-insensitive "0" / "false" / "no" parse as false;
the empty string and every other value parse as true. -/

/-- ASCII lowercasing, the embedding of the `to_lower` used on env values. -/
def asciiLower (s : String) : String :=
  String.mk (s.toList.map Char.toLower)

/-- Modelled from the spec: whether a boolean environment value is falsy. -/
def falsy (s : String) : Bool :=
  let l := asciiLower s
  l = "0" || l = "false" || l = "no"

/-- Modelled from the spec: parse a boolean environment variable value. -/
def parse_bool_env (s : String) : Bool :=
  !(falsy s)

/-- Modelled from the spec: the finalized value of a boolean tracer option
(such as `report_traces` / DD_TRACE_ENABLED or `log_on_startup` /
DD_TRACE_STARTUP_LOGS): the environment overrides the programmatic value,
which itself defaults to true. -/
def finalize_bool_option (config_value : Option Bool) (env_value : Option String) : Bool :=
  match env_value with
  | some s => parse_bool_env s
  | none => config_value.getD true

/-! ## Propagation styles

Modelled from the spec: a style list is comma- and/or space-separated,
case-insensitive, from the set containing Datadog and B3; an empty token or an
unknown name is an `UNKNOWN_PROPAGATION_STYLE` error. -/

/-- Embedding of `struct PropagationStyles` from `propagation_styles.h`. -/
structure PropagationStyles where
  datadog : Bool := false
  b3 : Bool := false
deriving Repr, DecidableEq

/-- Fold style tokens into a `PropagationStyles`; duplicates are allowed. -/
def parseStylesTokens : List String → PropagationStyles →
    Except ECode PropagationStyles
  | [], acc => Except.ok acc
  | t :: ts, acc =>
    let l := asciiLower t
    if l = "datadog" then parseStylesTokens ts { acc with datadog := true }
    else if l = "b3" then parseStylesTokens ts { acc with b3 := true }
    else Except.error ECode.UNKNOWN_PROPAGATION_STYLE

/-- Modelled from the spec: parse a propagation-style environment value. -/
def parse_styles (s : String) : Except ECode PropagationStyles :=
  parseStylesTokens (parse_list s) {}

/-! ## Doubles with IEEE special values

Configuration rates and limits are C++ `double`s whose validation cares only
about NaN, infinity, zero versus nonzero (`std::fpclassify`) and order
comparisons; no rounding is involved.  They are embedded as a rational plus
the special classes.  A finite nonzero value classifies as `normalish`,
standing for both FP_NORMAL and FP_SUBNORMAL, which every validation in the
source treats identically. -/

inductive DVal : Type
  | nan
  | posInf
  | negInf
  | val (q : Rat)
deriving Repr, DecidableEq

/-- Embedding of `std::fpclassify`, merging FP_NORMAL and FP_SUBNORMAL. -/
inductive FpClass : Type
  | nanClass
  | infiniteClass
  | zeroClass
  | normalish
deriving Repr, DecidableEq

def DVal.classify : DVal → FpClass
  | .nan => .nanClass
  | .posInf => .infiniteClass
  | .negInf => .infiniteClass
  | .val q => if q = 0 then .zeroClass else .normalish

/-- Embedding of the C++ comparison `x > 0` (false on NaN). -/
def DVal.gtZero : DVal → Bool
  | .nan => false
  | .posInf => true
  | .negInf => false
  | .val q => 0 < q

/-- Modelled from the spec: `Rate::from` accepts exactly the values in the
closed interval from 0 to 1 (`rate.cpp` is an out-of-scope thin wrapper). -/
def rateFrom : DVal → Except ECode Rat
  | .val q => if 0 ≤ q ∧ q ≤ 1 then Except.ok q else Except.error ECode.RATE_OUT_OF_RANGE
  | _ => Except.error ECode.RATE_OUT_OF_RANGE

/-! ## Span matchers and span sampler configuration
(span_sampler_config.h and its .cpp, provided as part_000) -/

/-- Embedding of `SpanMatcher` (span_matcher.h): four glob patterns; absent
fields default to a universal match. -/
structure SpanMatcher where
  service : String := "*"
  name : String := "*"
  resource : String := "*"
  tags : List (String × String) := []
deriving Repr, DecidableEq

/-- Embedding of `SpanSamplerConfig::Rule`. -/
structure SpanSamplerRule where
  matcher : SpanMatcher := {}
  sample_rate : DVal := DVal.val 1
  max_per_second : Option DVal := none
deriving Repr, DecidableEq

/-- Embedding of `FinalizedSpanSamplerConfig::Rule`. -/
structure FinalizedSpanSamplerRule where
  matcher : SpanMatcher := {}
  sample_rate : Rat := 1
  max_per_second : Option DVal := none
deriving Repr, DecidableEq

/-- JSON values, the embedding of `nlohmann::json` documents.  Numbers carry a
`DVal` so that rule rates keep their IEEE classification. -/
inductive Json : Type
  | null
  | bool (b : Bool)
  | num (v : DVal)
  | str (s : String)
  | arr (xs : List Json)
  | obj (kvs : List (String × Json))

/-- Modelled from the spec: `SpanMatcher::from_json` (`span_matcher.cpp` is
not among the provided sources; the behavior is pinned by the rule-parsing
unit tests): a rule must be a JSON object; `service`, `name` and `resource`
must be strings when present and default to a universal pattern; `tags` must
be an object of string values. -/
def SpanMatcher.from_json (j : Json) : Except ECode SpanMatcher :=
  match j with
  | .obj kvs =>
    let fieldStr := fun (key : String) (dflt : String) =>
      match assocLookup kvs key with
      | none => Except.ok dflt
      | some (.str s) => Except.ok s
      | some _ => Except.error ECode.RULE_PROPERTY_WRONG_TYPE
    match fieldStr "service" "*" with
    | .error e => .error e
    | .ok service =>
      match fieldStr "name" "*" with
      | .error e => .error e
      | .ok name =>
        match fieldStr "resource" "*" with
        | .error e => .error e
        | .ok resource =>
          match assocLookup kvs "tags" with
          | none => .ok { service := service, name := name, resource := resource }
          | some (.obj tkvs) =>
            let rec strTags : List (String × Json) → Except ECode (List (String × String))
              | [] => .ok []
              | (k, .str v) :: rest =>
                match strTags rest with
                | .error e => .error e
                | .ok acc => .ok ((k, v) :: acc)
              | (_, _) :: _ => .error ECode.RULE_TAG_WRONG_TYPE
            match strTags tkvs with
            | .error e => .error e
            | .ok tgs =>
              .ok { service := service, name := name, resource := resource, tags := tgs }
          | some _ => .error ECode.RULE_PROPERTY_WRONG_TYPE
  | _ => .error ECode.RULE_WRONG_TYPE

/-- Allowed properties of a span sampling rule (part_000 lines 49-50). -/
def allowedRuleProperties : List String :=
  ["service", "name", "resource", "tags", "sample_rate", "max_per_second"]

/-- Embedding of one iteration of the rule loop in `parse_rules`
(part_000 lines 52-127). -/
def parseOneRule (j : Json) : Except ECode SpanSamplerRule :=
  match SpanMatcher.from_json j with
  | .error e => .error e
  | .ok matcher =>
    let kvs : List (String × Json) := match j with
      | .obj kvs => kvs
      | _ => []
    let rate : Except ECode DVal :=
      match assocLookup kvs "sample_rate" with
      | none => .ok (DVal.val 1)
      | some (Json.num v) => .ok v
      | some _ => .error ECode.SPAN_SAMPLING_RULES_SAMPLE_RATE_WRONG_TYPE
    match rate with
    | .error e => .error e
    | .ok sample_rate =>
      let mps : Except ECode (Option DVal) :=
        match assocLookup kvs "max_per_second" with
        | none => .ok none
        | some (Json.num v) => .ok (some v)
        | some _ => .error ECode.SPAN_SAMPLING_RULES_MAX_PER_SECOND_WRONG_TYPE
      match mps with
      | .error e => .error e
      | .ok max_per_second =>
        if kvs.all (fun kv => allowedRuleProperties.contains kv.1) then
          .ok { matcher := matcher, sample_rate := sample_rate,
                max_per_second := max_per_second }
        else
          .error ECode.SPAN_SAMPLING_RULES_UNKNOWN_PROPERTY

/-- Embedding of `parse_rules` (part_000 lines 19-130) applied to an
already-parsed JSON document: the document must be an array; each element is
parsed by `parseOneRule`. -/
def parse_rules (j : Json) : Except ECode (List SpanSamplerRule) :=
  match j with
  | .arr elems =>
    let rec go : List Json → Except ECode (List SpanSamplerRule)
      | [] => .ok []
      | e :: rest =>
        match parseOneRule e with
        | .error err => .error err
        | .ok rule =>
          match go rest with
          | .error err => .error err
          | .ok rules => .ok (rule :: rules)
    go elems
  | _ => .error ECode.SPAN_SAMPLING_RULES_WRONG_TYPE

/-- Embedding of the max_per_second range check in part_000 lines 221-226:
the value is rejected when it is not strictly greater than zero or when its
classification is neither FP_NORMAL nor FP_SUBNORMAL. -/
def mpsBad : Option DVal → Bool
  | none => false
  | some v => !(v.gtZero) || !(v.classify = FpClass.normalish)

/-- Embedding of the validation loop of `finalize_config`
(part_000 lines 209-242). -/
def validateRules : List SpanSamplerRule → Except ECode (List FinalizedSpanSamplerRule)
  | [] => .ok []
  | r :: rest =>
    match rateFrom r.sample_rate with
    | .error e => .error e
    | .ok rate =>
      if mpsBad r.max_per_second then
        .error ECode.MAX_PER_SECOND_OUT_OF_RANGE
      else
        match validateRules rest with
        | .error e => .error e
        | .ok rules =>
          .ok ({ matcher := r.matcher, sample_rate := rate,
                 max_per_second := r.max_per_second } :: rules)

/-- Log message emitted when both span-rule environment variables are set
(part_000 lines 157-166). -/
def spanRulesOverrideMessage : String :=
  "DD_SPAN_SAMPLING_RULES_FILE is overridden by DD_SPAN_SAMPLING_RULES.  " ++
  "Since both are set, DD_SPAN_SAMPLING_RULES takes precedence, and " ++
  "DD_SPAN_SAMPLING_RULES_FILE will be ignored."

/-- Embedding of `finalize_config(const SpanSamplerConfig&, Logger&)` from
part_000 lines 136-245.  The process environment is the function `env`, the
file system is `fs` (`none` meaning the file cannot be opened or read), and
`jparse` is the external `nlohmann::json::parse` (`none` meaning a JSON parse
error).  The returned list of strings is what the logger received via
`log_error`. -/
def finalize_span_sampler_config (config_rules : List SpanSamplerRule)
    (env : String → Option String) (fs : String → Option String)
    (jparse : String → Option Json) :
    Except ECode (List FinalizedSpanSamplerRule) × List String :=
  let rules_env := env "DD_SPAN_SAMPLING_RULES"
  let step1 : Except ECode (List SpanSamplerRule) :=
    match rules_env with
    | none => .ok config_rules
    | some s =>
      match jparse s with
      | none => .error ECode.SPAN_SAMPLING_RULES_INVALID_JSON
      | some j => parse_rules j
  match step1 with
  | .error e => (.error e, [])
  | .ok rules =>
    match env "DD_SPAN_SAMPLING_RULES_FILE" with
    | none => (validateRules rules, [])
    | some file =>
      if rules_env.isSome then
        (validateRules rules, [spanRulesOverrideMessage])
      else
        match fs file with
        | none => (.error ECode.SPAN_SAMPLING_RULES_FILE_IO, [])
        | some contents =>
          match jparse contents with
          | none => (.error ECode.SPAN_SAMPLING_RULES_INVALID_JSON, [])
          | some j =>
            match parse_rules j with
            | .error e => (.error e, [])
            | .ok rules2 => (validateRules rules2, [])

/-! ## Propagation codec and trace segment

Modelled from the spec: `trace_segment.cpp`, `tracer.cpp` and
`tag_propagation.cpp` are not among the provided sources.  The model below
follows sections 4.E and 4.G of the specification: Datadog-style extraction
and injection, the propagated-tags payload (comma-separated `key=value`
pairs in insertion order), the size cap with the `inject_max_size`
propagation error, and the enrichment of the local root span at
submission. -/

/-- Parse a decimal digit character. -/
def digitVal (c : Char) : Option Nat :=
  if c.isDigit then some (c.toNat - 48) else none

/-- Parse a nonempty all-digit string as a natural number. -/
def parseDecNat (s : String) : Option Nat :=
  let cs := s.toList
  if cs.isEmpty then none
  else
    cs.foldl
      (fun acc c =>
        match acc, digitVal c with
        | some n, some d => some (n * 10 + d)
        | _, _ => none)
      (some 0)

/-- Modelled from the spec: parse a decimal unsigned 64-bit integer header
value; out-of-range or non-digit input is malformed. -/
def parse_u64 (s : String) : Option Nat :=
  match parseDecNat s with
  | some n => if n < 2 ^ 64 then some n else none
  | none => none

/-- Modelled from the spec: parse a decimal signed integer header value
(the sampling priority), with an optional leading minus sign. -/
def parse_int (s : String) : Option Int :=
  match s.toList with
  | '-' :: rest =>
    match parseDecNat (String.mk rest) with
    | some n => some (-(n : Int))
    | none => none
  | _ =>
    match parseDecNat s with
    | some n => some (n : Int)
    | none => none

/-- Origin of a sampling decision (sampling_decision.h). -/
inductive SamplingOrigin : Type
  | localOrigin
  | extracted
  | delegated
deriving Repr, DecidableEq

/-- Embedding of `SamplingDecision`: the priority and where it came from. -/
structure SamplingDecision where
  priority : Int
  origin : SamplingOrigin
deriving Repr, DecidableEq

/-- Trace context produced by extraction. -/
structure ExtractedContext where
  trace_id : Nat
  parent_id : Nat
  sampling_priority : Option Int := none
  origin : Option String := none
  trace_tags : List (String × String) := []
deriving Repr, DecidableEq

/-- Modelled from the spec: serialize the propagated tags as comma-separated
`key=value` pairs, in insertion order, with no whitespace. -/
def encode_tags (trace_tags : List (String × String)) : String :=
  String.intercalate "," (trace_tags.map (fun kv => kv.1 ++ "=" ++ kv.2))

/-- Split a `key=value` pair at its first equals sign. -/
def splitAtEq : List Char → Option (List Char × List Char)
  | [] => none
  | c :: rest =>
    if c = '=' then some ([], rest)
    else
      match splitAtEq rest with
      | none => none
      | some (k, v) => some (c :: k, v)

/-- Modelled from the spec: decode an `x-datadog-tags` header value; a pair
with no equals sign is malformed and fails the whole decode; only keys with
the propagated-tag prefix `_dd.p.` are retained. -/
def decode_tags (header_value : String) : Option (List (String × String)) :=
  let rec go : List String → Option (List (String × String))
    | [] => some []
    | p :: rest =>
      match splitAtEq p.toList with
      | none => none
      | some (k, v) =>
        match go rest with
        | none => none
        | some acc =>
          let key := String.mk k
          if strStartsWith "_dd.p." key then some ((key, String.mk v) :: acc)
          else some acc
  go (header_value.splitOn ",")

/-- Modelled from the spec: Datadog-style extraction.  A complete
`trace_id` / `parent_id` pair is required; a missing or malformed priority is
tolerated as "no decision"; malformed IDs fail extraction. -/
def extract_datadog (headers : List (String × String)) : Option ExtractedContext :=
  match assocLookup headers "x-datadog-trace-id",
        assocLookup headers "x-datadog-parent-id" with
  | some tid_s, some pid_s =>
    match parse_u64 tid_s, parse_u64 pid_s with
    | some tid, some pid =>
      let tt := match assocLookup headers "x-datadog-tags" with
        | none => []
        | some v => (decode_tags v).getD []
      some { trace_id := tid
             parent_id := pid
             sampling_priority := (assocLookup headers "x-datadog-sampling-priority").bind parse_int
             origin := assocLookup headers "x-datadog-origin"
             trace_tags := tt }
    | _, _ => none
  | _, _ => none

/-- Modelled from the spec: the per-process trace segment state that matters
to propagation and root-span enrichment (section 4.G). -/
structure TraceSegment where
  trace_tags : List (String × String) := []
  sampling_decision : Option SamplingDecision := none
  origin : Option String := none
  tags_header_size : Nat := 512
  propagation_error : Option String := none
deriving Repr, DecidableEq

/-- Modelled from the spec: the trace segment a `Tracer::extract_span` call
builds from an extracted context: an extracted priority becomes a sampling
decision with origin `EXTRACTED`. -/
def segment_from_extracted (ctx : ExtractedContext) (tags_header_size : Nat) :
    TraceSegment :=
  { trace_tags := ctx.trace_tags
    sampling_decision :=
      ctx.sampling_priority.map
        (fun p => { priority := p, origin := SamplingOrigin.extracted })
    origin := ctx.origin
    tags_header_size := tags_header_size
    propagation_error := none }

/-- Modelled from the spec: when the segment has no sampling decision yet, a
local decision is made (the trace sampler yielding priority `p` via mechanism
`mech`), and on a keep decision the decision-maker tag `_dd.p.dm` is written
into the propagated tag set with a dash-prefixed mechanism code. -/
def make_local_decision (seg : TraceSegment) (p : Int) (mech : Nat) : TraceSegment :=
  match seg.sampling_decision with
  | some _ => seg
  | none =>
    let seg2 := { seg with
      sampling_decision := some { priority := p, origin := SamplingOrigin.localOrigin } }
    if 0 < p then
      let dm := "-" ++ toString mech
      { seg2 with trace_tags := insertOrAssign seg2.trace_tags tags.internal.decision_maker dm }
    else seg2

/-- Result of an injection: the writer contents and the updated segment. -/
structure InjectResult where
  writer : List (String × String)
  segment : TraceSegment
deriving Repr, DecidableEq

/-- Modelled from the spec: Datadog-style injection (section 4.E).  Writes the
trace id, parent id, sampling priority (deciding locally first if there is no
decision yet, with sampler priority `p` and mechanism `mech`) and origin; then
the propagated-tags payload, unless it is empty or its serialized form
exceeds the segment's header-size cap, in which case the header is omitted
and the `inject_max_size` propagation error is recorded on the segment. -/
def inject_datadog (seg : TraceSegment) (p : Int) (mech : Nat)
    (trace_id span_id : Nat) (writer : List (String × String)) : InjectResult :=
  let seg1 := make_local_decision seg p mech
  let w1 := insertOrAssign writer "x-datadog-trace-id" (toString trace_id)
  let w2 := insertOrAssign w1 "x-datadog-parent-id" (toString span_id)
  let w3 := match seg1.sampling_decision with
    | some d => insertOrAssign w2 "x-datadog-sampling-priority" (toString d.priority)
    | none => w2
  let w4 := match seg1.origin with
    | some o => insertOrAssign w3 "x-datadog-origin" o
    | none => w3
  let encoded := encode_tags seg1.trace_tags
  if encoded.length = 0 then
    { writer := w4, segment := seg1 }
  else if seg1.tags_header_size < encoded.length then
    { writer := w4
      segment := { seg1 with propagation_error := some "inject_max_size" } }
  else
    { writer := insertOrAssign w4 "x-datadog-tags" encoded, segment := seg1 }

/-- Modelled from the spec: root-span enrichment before submission (section
4.G item 3): attach the upstream origin, any deferred propagation-error tag,
and the numeric `_sampling_priority_v1` tag to the local root span. -/
def finalize_root_span (seg : TraceSegment) (root : SpanData) : SpanData :=
  let t1 := match seg.origin with
    | some o => insertOrAssign root.tags tags.internal.origin o
    | none => root.tags
  let t2 := match seg.propagation_error with
    | some e => insertOrAssign t1 tags.internal.propagation_error e
    | none => t1
  let nt := match seg.sampling_decision with
    | some d => insertOrAssign root.numeric_tags tags.internal.sampling_priority (d.priority : Rat)
    | none => root.numeric_tags
  { root with tags := t2, numeric_tags := nt }

/-- Modelled from the spec: what happens to the local root span when the last
span of the segment closes: if there is no sampling decision yet the trace
sampler decides (priority `p`, mechanism `mech`), then the root span is
enriched and the batch is handed to the collector. -/
def close_and_submit_root (seg : TraceSegment) (p : Int) (mech : Nat)
    (root : SpanData) : SpanData :=
  finalize_root_span (make_local_decision seg p mech) root

/-! ## Shared lemmas -/

theorem assocLookup_insertOrAssign {α : Type} (m : List (String × α)) (k k2 : String) (v : α) :
    assocLookup (insertOrAssign m k2 v) k =
      if k2 = k then some v else assocLookup m k := by
  by_cases h : k2 = k
  · subst h
    simp [assocLookup_insertOrAssign_self]
  · simp [h, assocLookup_insertOrAssign_ne m k k2 v h]

theorem applyUserTags_internal_lookup (k : String) (hk : tags.is_internal k = true)
    (l : List (String × String)) (acc : List (String × String)) :
    assocLookup (applyUserTags acc l) k = assocLookup acc k := by
  induction l generalizing acc with
  | nil => rfl
  | cons hd tl ih =>
    obtain ⟨k2, v2⟩ := hd
    by_cases h2 : tags.is_internal k2
    · simp [applyUserTags, h2, ih]
    · have hne : k2 ≠ k := by
        intro he
        rw [he, hk] at h2
        exact h2 rfl
      simp only [applyUserTags, h2]
      rw [if_neg (by simp [h2]), ih, assocLookup_insertOrAssign_ne acc k k2 v2 hne]

theorem make_local_decision_decided (seg : TraceSegment) (d : SamplingDecision)
    (p : Int) (mech : Nat) (h : seg.sampling_decision = some d) :
    make_local_decision seg p mech = seg := by
  simp [make_local_decision, h]

theorem make_local_decision_header_size (seg : TraceSegment) (p : Int) (mech : Nat) :
    (make_local_decision seg p mech).tags_header_size = seg.tags_header_size := by
  unfold make_local_decision
  cases h : seg.sampling_decision with
  | some d => rfl
  | none =>
    by_cases hp : 0 < p <;> simp [hp]

theorem make_local_decision_isSome (seg : TraceSegment) (p : Int) (mech : Nat) :
    (make_local_decision seg p mech).sampling_decision.isSome := by
  unfold make_local_decision
  cases h : seg.sampling_decision with
  | some d => simp [h]
  | none =>
    by_cases hp : 0 < p <;> simp [hp]

/-! ## Claims -/

/-- C2: for every `SpanData`, `msgpack_encode` produces a map with exactly 12
entries whose keys appear in the order service, name, resource, trace_id,
span_id, parent_id, start, duration, error, meta, metrics, type, with start
and duration encoded as nanosecond integers, meta as the string-to-string map
of the span's tags, and metrics as the string-to-float map of the span's
numeric tags. -/
theorem C2_msgpack_span_map (span : SpanData) :
    (msgpack_encode span).map Prod.fst =
      ["service", "name", "resource", "trace_id", "span_id", "parent_id",
       "start", "duration", "error", "meta", "metrics", "type"] ∧
    (msgpack_encode span).length = 12 ∧
    assocLookup (msgpack_encode span) "start" = some (MpValue.int span.start) ∧
    assocLookup (msgpack_encode span) "duration" = some (MpValue.int span.duration) ∧
    assocLookup (msgpack_encode span) "meta" = some (MpValue.mapStr span.tags) ∧
    assocLookup (msgpack_encode span) "metrics" = some (MpValue.mapFloat span.numeric_tags) := by
  refine ⟨rfl, rfl, ?_, ?_, ?_, ?_⟩ <;> simp [msgpack_encode, assocLookup]

/-- C10: when the span configuration does not set `resource`, `apply_config`
sets the span's resource equal to the span's resolved operation name. -/
theorem C10_resource_defaults_to_name (span : SpanData) (defaults : SpanDefaults)
    (config : SpanConfig) (clock : Int) (h : config.resource = none) :
    (span.apply_config defaults config clock).resource =
      (span.apply_config defaults config clock).name := by
  simp [SpanData.apply_config, h]

theorem C10_resource_defaults_to_name_witness :
    ({ name := some "wobble" } : SpanConfig).resource = none ∧
    (({} : SpanData).apply_config {} { name := some "wobble" } 0).resource =
      (({} : SpanData).apply_config {} { name := some "wobble" } 0).name :=
  ⟨rfl, C10_resource_defaults_to_name {} {} { name := some "wobble" } 0 rfl⟩

/-- C4: a user-supplied tag whose key has the reserved underscore-d-d-dot
prefix is filtered out by `SpanData::apply_config`: the span's tag mapping at
any reserved key is the same as if the configuration had supplied no tags at
all. -/
theorem C4_reserved_tags_filtered (span : SpanData) (defaults : SpanDefaults)
    (config : SpanConfig) (clock : Int) (k : String)
    (hk : tags.is_internal k = true) :
    assocLookup (span.apply_config defaults config clock).tags k =
      assocLookup (span.apply_config defaults { config with tags := [] } clock).tags k := by
  simp only [SpanData.apply_config]
  rw [applyUserTags_internal_lookup k hk]
  rfl

theorem C4_reserved_tags_filtered_witness :
    tags.is_internal "_dd.sneaky" = true ∧
    assocLookup
        (({} : SpanData).apply_config {}
          { tags := [("_dd.sneaky", "1"), ("ok", "2")] } 0).tags "_dd.sneaky" =
      assocLookup
        (({} : SpanData).apply_config {}
          { ({ tags := [("_dd.sneaky", "1"), ("ok", "2")] } : SpanConfig) with tags := [] }
          0).tags "_dd.sneaky" :=
  ⟨by decide,
   C4_reserved_tags_filtered {} {} { tags := [("_dd.sneaky", "1"), ("ok", "2")] } 0
     "_dd.sneaky" (by decide)⟩

/-- C5: a boolean-valued environment variable parses to false exactly when its
value is "0", "false" or "no" compared case-insensitively; the empty string
and every other value (such as "n", "1", "true", "goldfish") parse to true,
overriding the programmatic value either way. -/
theorem C5_boolean_env_parsing :
    (∀ (cfg : Option Bool) (s : String),
        finalize_bool_option cfg (some s) = false ↔
          (asciiLower s = "0" ∨ asciiLower s = "false" ∨ asciiLower s = "no")) ∧
    finalize_bool_option (some true) (some "") = true ∧
    finalize_bool_option (some false) (some "n") = true ∧
    finalize_bool_option (some true) (some "FaLsE") = false ∧
    finalize_bool_option (some true) (some "no") = false ∧
    finalize_bool_option (some true) (some "0") = false ∧
    finalize_bool_option (some false) (some "1") = true ∧
    finalize_bool_option (some false) (some "true") = true ∧
    finalize_bool_option (some false) (some "goldfish") = true := by
  refine ⟨?_, by decide, by decide, by decide, by decide, by decide, by decide,
          by decide, by decide⟩
  intro cfg s
  simp [finalize_bool_option, parse_bool_env, falsy]
  tauto

/-- A propagation style token is recognized when it case-insensitively equals
datadog or b3. -/
def styleTokenOk (t : String) : Bool :=
  asciiLower t = "datadog" || asciiLower t = "b3"

theorem parseStylesTokens_error_of_bad (ts : List String) :
    ∀ acc, (∃ t ∈ ts, styleTokenOk t = false) →
      parseStylesTokens ts acc = Except.error ECode.UNKNOWN_PROPAGATION_STYLE := by
  induction ts with
  | nil =>
    intro acc h
    simp at h
  | cons t ts ih =>
    intro acc h
    obtain ⟨u, hu, hbad⟩ := h
    by_cases h1 : asciiLower t = "datadog"
    · have hts : u ∈ ts := by
        rcases List.mem_cons.mp hu with h2 | h2
        · exfalso
          rw [h2] at hbad
          simp [styleTokenOk, h1] at hbad
        · exact h2
      simp only [parseStylesTokens, h1, if_true]
      exact ih _ ⟨u, hts, hbad⟩
    · by_cases h2 : asciiLower t = "b3"
      · have hts : u ∈ ts := by
          rcases List.mem_cons.mp hu with h3 | h3
          · exfalso
            rw [h3] at hbad
            simp [styleTokenOk, h2] at hbad
          · exact h3
        simp only [parseStylesTokens, h1, h2, if_false, if_true]
        exact ih _ ⟨u, hts, hbad⟩
      · simp [parseStylesTokens, h1, h2]

theorem parseStylesTokens_ok_of_good (ts : List String) :
    ∀ acc, (∀ t ∈ ts, styleTokenOk t = true) →
      ∃ sty, parseStylesTokens ts acc = Except.ok sty := by
  induction ts with
  | nil =>
    intro acc _
    exact ⟨acc, rfl⟩
  | cons t ts ih =>
    intro acc h
    have ht := h t (List.mem_cons_self t ts)
    have hts : ∀ u ∈ ts, styleTokenOk u = true := fun u hu => h u (List.mem_cons_of_mem t hu)
    by_cases h1 : asciiLower t = "datadog"
    · simpa only [parseStylesTokens, h1, if_true] using ih _ hts
    · have h2 : asciiLower t = "b3" := by
        simp [styleTokenOk, h1] at ht
        exact ht
      simp only [parseStylesTokens, h1, h2, if_false, if_true]
      exact ih _ hts

/-- C6: a propagation-style environment value is parsed as a comma- and/or
space-separated, case-insensitive list over the set containing Datadog and B3,
duplicates allowed; whenever the token list contains an empty token (as in
"b3,,datadog") or an unknown name (as in "b3,datadog,w3c"), parsing fails with
UNKNOWN_PROPAGATION_STYLE, so configuration finalization fails and the tracer
is not constructed. -/
theorem C6_propagation_style_parsing :
    (∀ s : String, (∃ t ∈ parse_list s, styleTokenOk t = false) →
        parse_styles s = Except.error ECode.UNKNOWN_PROPAGATION_STYLE) ∧
    (∀ s : String, (∀ t ∈ parse_list s, styleTokenOk t = true) →
        ∃ sty, parse_styles s = Except.ok sty) ∧
    styleTokenOk "" = false ∧
    parse_list "b3,,datadog" = ["b3", "", "datadog"] ∧
    parse_styles "b3,,datadog" = Except.error ECode.UNKNOWN_PROPAGATION_STYLE ∧
    parse_styles "b3,datadog,w3c" = Except.error ECode.UNKNOWN_PROPAGATION_STYLE ∧
    parse_styles "DaTaDoG" = Except.ok { datadog := true, b3 := false } ∧
    parse_styles "b3,datadog,datadog" = Except.ok { datadog := true, b3 := true } ∧
    parse_styles "Datadog B3" = Except.ok { datadog := true, b3 := true } := by
  refine ⟨?_, ?_, by decide, by rfl, by rfl, by rfl, by rfl, by rfl, by rfl⟩
  · intro s h
    exact parseStylesTokens_error_of_bad (parse_list s) {} h
  · intro s h
    exact parseStylesTokens_ok_of_good (parse_list s) {} h

theorem C6_propagation_style_parsing_witness :
    parse_styles "b3 w3c" = Except.error ECode.UNKNOWN_PROPAGATION_STYLE ∧
    (∃ sty, parse_styles "b3, datadog" = Except.ok sty) :=
  ⟨C6_propagation_style_parsing.1 "b3 w3c" ⟨"w3c", by decide, by decide⟩,
   C6_propagation_style_parsing.2.1 "b3, datadog" (by decide)⟩

/-- Value of the last pair with the given key in a pair list, or the given
default when the key never occurs. -/
def lastValue : List (String × String) → String → Option String → Option String
  | [], _, dflt => dflt
  | (k2, v2) :: rest, k, dflt => lastValue rest k (if k2 = k then some v2 else dflt)

theorem parseTagsTokens_error_of_missing_sep (ts : List String) :
    ∀ acc, (∃ t ∈ ts, parseTagToken t = none) →
      parseTagsTokens ts acc = Except.error ECode.TAG_MISSING_SEPARATOR := by
  induction ts with
  | nil =>
    intro acc h
    simp at h
  | cons t ts ih =>
    intro acc h
    obtain ⟨u, hu, hbad⟩ := h
    cases hp : parseTagToken t with
    | none => simp [parseTagsTokens, hp]
    | some kv =>
      obtain ⟨k2, v2⟩ := kv
      have hts : u ∈ ts := by
        rcases List.mem_cons.mp hu with h2 | h2
        · exfalso
          rw [h2, hp] at hbad
          exact Option.some_ne_none _ hbad
        · exact h2
      simp only [parseTagsTokens, hp]
      exact ih _ ⟨u, hts, hbad⟩

theorem parseTagsTokens_lookup (ts : List String) :
    ∀ acc m, parseTagsTokens ts acc = Except.ok m →
      ∀ k, assocLookup m k =
        lastValue (ts.filterMap parseTagToken) k (assocLookup acc k) := by
  induction ts with
  | nil =>
    intro acc m h k
    simp only [parseTagsTokens] at h
    cases h
    simp [lastValue]
  | cons t ts ih =>
    intro acc m h k
    cases hp : parseTagToken t with
    | none =>
      simp only [parseTagsTokens, hp] at h
      exact absurd h (by simp)
    | some kv =>
      obtain ⟨k2, v2⟩ := kv
      simp only [parseTagsTokens, hp] at h
      rw [ih _ m h k]
      simp [List.filterMap_cons, hp, lastValue, assocLookup_insertOrAssign]

/-- C3 counterexample: with programmatic default tags containing the key foo
and DD_TAGS set to "baz:123, bam:three" (which does not mention foo),
finalization does NOT retain the default tag foo; the DD_TAGS pairs replace
the defaults entirely, as the repository's own unit tests require. -/
theorem C3_counterexample_dd_tags_not_merged :
    finalize_default_tags [("foo", "bar")] (some "baz:123, bam:three") =
      Except.ok [("baz", "123"), ("bam", "three")] ∧
    assocLookup [("baz", "123"), ("bam", "three")] "foo" = none :=
  ⟨by rfl, by rfl⟩

/-- C3 (amended): when DD_TAGS is set to a comma- or space-separated list of
`k:v` pairs, finalization REPLACES the programmatically configured default
tags with the parsed pairs (the programmatic defaults have no effect on the
result); a pair with no colon separator makes finalization fail with a
TAG_MISSING_SEPARATOR error; and when DD_TAGS repeats a key, the last
occurrence's value wins. -/
theorem C3_dd_tags_replace_defaults :
    (∀ (d1 d2 : List (String × String)) (s : String),
        finalize_default_tags d1 (some s) = finalize_default_tags d2 (some s)) ∧
    (∀ (d : List (String × String)) (s : String),
        (∃ t ∈ parse_list s, parseTagToken t = none) →
        finalize_default_tags d (some s) = Except.error ECode.TAG_MISSING_SEPARATOR) ∧
    (∀ (d : List (String × String)) (s : String) (m : List (String × String)) (k : String),
        finalize_default_tags d (some s) = Except.ok m →
        assocLookup m k = lastValue ((parse_list s).filterMap parseTagToken) k none) ∧
    finalize_default_tags [("foo", "bar")] (some "foo") =
      Except.error ECode.TAG_MISSING_SEPARATOR ∧
    finalize_default_tags [("foo", "bar")] (some "baz:123 baz:three") =
      Except.ok [("baz", "three")] := by
  refine ⟨?_, ?_, ?_, by rfl, by rfl⟩
  · intro d1 d2 s
    rfl
  · intro d s h
    exact parseTagsTokens_error_of_missing_sep (parse_list s) [] h
  · intro d s m k h
    exact parseTagsTokens_lookup (parse_list s) [] m h k

theorem C3_dd_tags_replace_defaults_witness :
    finalize_default_tags [("a", "1")] (some "k:v") =
      finalize_default_tags [("b", "2")] (some "k:v") ∧
    finalize_default_tags [("a", "1")] (some "nocolon") =
      Except.error ECode.TAG_MISSING_SEPARATOR ∧
    assocLookup [("baz", "three")] "baz" =
      lastValue ((parse_list "baz:123 baz:three").filterMap parseTagToken) "baz" none :=
  ⟨C3_dd_tags_replace_defaults.1 [("a", "1")] [("b", "2")] "k:v",
   C3_dd_tags_replace_defaults.2.1 [("a", "1")] "nocolon" ⟨"nocolon", by decide, by decide⟩,
   C3_dd_tags_replace_defaults.2.2.1 [("a", "1")] "baz:123 baz:three" [("baz", "three")]
     "baz" (by rfl)⟩

/-- C7: for a span sampling rule with a valid sample rate, finalization
succeeds exactly when `max_per_second` is absent or a finite strictly
positive number; a zero, negative, NaN or infinite value makes finalization
return MAX_PER_SECOND_OUT_OF_RANGE and no finalized configuration. -/
theorem C7_max_per_second_validation :
    (∀ (r : SpanSamplerRule) (q : Rat) (fs : String → Option String)
        (jp : String → Option Json),
        rateFrom r.sample_rate = Except.ok q →
        (finalize_span_sampler_config [r] (fun _ => none) fs jp).1 =
          (if mpsBad r.max_per_second then
            Except.error ECode.MAX_PER_SECOND_OUT_OF_RANGE
           else
            Except.ok [{ matcher := r.matcher, sample_rate := q,
                         max_per_second := r.max_per_second }])) ∧
    mpsBad none = false ∧
    (∀ q : Rat, 0 < q → mpsBad (some (DVal.val q)) = false) ∧
    (∀ q : Rat, q ≤ 0 → mpsBad (some (DVal.val q)) = true) ∧
    mpsBad (some DVal.nan) = true ∧
    mpsBad (some DVal.posInf) = true ∧
    mpsBad (some DVal.negInf) = true := by
  refine ⟨?_, rfl, ?_, ?_, rfl, rfl, rfl⟩
  · intro r q fs jp h
    by_cases hb : mpsBad r.max_per_second
    · simp [finalize_span_sampler_config, validateRules, h, hb]
    · simp [finalize_span_sampler_config, validateRules, h, hb]
  · intro q hq
    simp [mpsBad, DVal.gtZero, DVal.classify, hq, ne_of_gt hq]
  · intro q hq
    simp [mpsBad, DVal.gtZero, DVal.classify, not_lt.mpr hq]

theorem C7_max_per_second_validation_witness :
    rateFrom (DVal.val 1) = Except.ok 1 ∧
    (finalize_span_sampler_config
        [{ sample_rate := DVal.val 1, max_per_second := some (DVal.val 0) }]
        (fun _ => none) (fun _ => none) (fun _ => none)).1 =
      Except.error ECode.MAX_PER_SECOND_OUT_OF_RANGE := by
  refine ⟨by rfl, ?_⟩
  have h := C7_max_per_second_validation.1
    { sample_rate := DVal.val 1, max_per_second := some (DVal.val 0) } 1
    (fun _ => none) (fun _ => none) (by rfl)
  have hb : mpsBad (some (DVal.val 0)) = true := by decide
  rw [hb] at h
  simpa using h

/-- C8: when both DD_SPAN_SAMPLING_RULES and DD_SPAN_SAMPLING_RULES_FILE are
set and the former parses and validates, finalization uses only the rules
from DD_SPAN_SAMPLING_RULES, never reads the file (the result is independent
of the file system), logs exactly the one override error message, and
succeeds; when only DD_SPAN_SAMPLING_RULES_FILE is set and the file cannot be
opened, finalization fails with SPAN_SAMPLING_RULES_FILE_IO. -/
theorem C8_span_rules_file_interaction :
    (∀ (config_rules : List SpanSamplerRule) (env : String → Option String)
        (fs fs2 : String → Option String) (jp : String → Option Json)
        (s f : String) (j : Json) (rs : List SpanSamplerRule)
        (frs : List FinalizedSpanSamplerRule),
        env "DD_SPAN_SAMPLING_RULES" = some s →
        env "DD_SPAN_SAMPLING_RULES_FILE" = some f →
        jp s = some j →
        parse_rules j = Except.ok rs →
        validateRules rs = Except.ok frs →
        finalize_span_sampler_config config_rules env fs jp =
            (Except.ok frs, [spanRulesOverrideMessage]) ∧
          finalize_span_sampler_config config_rules env fs jp =
            finalize_span_sampler_config config_rules env fs2 jp) ∧
    (∀ (config_rules : List SpanSamplerRule) (env : String → Option String)
        (fs : String → Option String) (jp : String → Option Json) (f : String),
        env "DD_SPAN_SAMPLING_RULES" = none →
        env "DD_SPAN_SAMPLING_RULES_FILE" = some f →
        fs f = none →
        finalize_span_sampler_config config_rules env fs jp =
          (Except.error ECode.SPAN_SAMPLING_RULES_FILE_IO, [])) := by
  constructor
  · intro cr env fs fs2 jp s f j rs frs h1 h2 h3 h4 h5
    constructor <;> simp [finalize_span_sampler_config, h1, h2, h3, h4, h5]
  · intro cr env fs jp f h1 h2 h3
    simp [finalize_span_sampler_config, h1, h2, h3]

/-- Environment with both span-rule variables set, for the C8 witness. -/
def c8EnvBoth : String → Option String := fun v =>
  if v = "DD_SPAN_SAMPLING_RULES" then some "[]"
  else if v = "DD_SPAN_SAMPLING_RULES_FILE" then some "rules.json"
  else none

/-- Environment with only the rules-file variable set, for the C8 witness. -/
def c8EnvFileOnly : String → Option String := fun v =>
  if v = "DD_SPAN_SAMPLING_RULES_FILE" then some "rules.json" else none

/-- JSON parser oracle accepting only the empty array, for the C8 witness. -/
def c8Jparse : String → Option Json := fun s =>
  if s = "[]" then some (Json.arr []) else none

theorem C8_span_rules_file_interaction_witness :
    finalize_span_sampler_config [] c8EnvBoth (fun _ => none) c8Jparse =
        (Except.ok [], [spanRulesOverrideMessage]) ∧
      finalize_span_sampler_config [] c8EnvBoth (fun _ => none) c8Jparse =
        finalize_span_sampler_config [] c8EnvBoth (fun _ => some "junk") c8Jparse ∧
      finalize_span_sampler_config [] c8EnvFileOnly (fun _ => none) c8Jparse =
        (Except.error ECode.SPAN_SAMPLING_RULES_FILE_IO, []) := by
  have h := C8_span_rules_file_interaction.1 [] c8EnvBoth (fun _ => none)
    (fun _ => some "junk") c8Jparse "[]" "rules.json" (Json.arr []) [] []
    (by decide) (by decide) (by rfl) rfl rfl
  have h2 := C8_span_rules_file_interaction.2 [] c8EnvFileOnly (fun _ => none)
    c8Jparse "rules.json" (by decide) (by decide) rfl
  exact ⟨h.1, h.2, h2⟩

/-- C9: extracting a span from headers carrying a trace id, a parent id and an
integer sampling priority p yields a trace segment whose sampling decision has
origin EXTRACTED, and after the span closes the local root span submitted to
the collector carries the numeric tag `_sampling_priority_v1` equal to p. -/
theorem C9_extracted_priority_to_root (headers : List (String × String))
    (cap : Nat) (tid pid : Nat) (p : Int) (ts ps pr : String)
    (q : Int) (mech : Nat) (root : SpanData)
    (h1 : assocLookup headers "x-datadog-trace-id" = some ts)
    (h2 : parse_u64 ts = some tid)
    (h3 : assocLookup headers "x-datadog-parent-id" = some ps)
    (h4 : parse_u64 ps = some pid)
    (h5 : assocLookup headers "x-datadog-sampling-priority" = some pr)
    (h6 : parse_int pr = some p) :
    ∃ ctx : ExtractedContext,
      extract_datadog headers = some ctx ∧
      (segment_from_extracted ctx cap).sampling_decision =
        some { priority := p, origin := SamplingOrigin.extracted } ∧
      assocLookup
          (close_and_submit_root (segment_from_extracted ctx cap) q mech root).numeric_tags
          tags.internal.sampling_priority = some (p : Rat) := by
  simp only [extract_datadog, h1, h2, h3, h4, h5, h6, Option.bind_some]
  refine ⟨_, rfl, ?_, ?_⟩
  · simp [segment_from_extracted, h6]
  · rw [close_and_submit_root,
        make_local_decision_decided _ { priority := p, origin := SamplingOrigin.extracted }
          q mech (by simp [segment_from_extracted, h6])]
    simp [finalize_root_span, segment_from_extracted, h6, assocLookup_insertOrAssign_self]

theorem C9_extracted_priority_to_root_witness :
    assocLookup [("x-datadog-trace-id", "123"), ("x-datadog-parent-id", "456"),
        ("x-datadog-sampling-priority", "7")] "x-datadog-trace-id" = some "123" ∧
    parse_u64 "123" = some 123 ∧
    ∃ ctx : ExtractedContext,
      extract_datadog [("x-datadog-trace-id", "123"), ("x-datadog-parent-id", "456"),
          ("x-datadog-sampling-priority", "7")] = some ctx ∧
      (segment_from_extracted ctx 512).sampling_decision =
        some { priority := 7, origin := SamplingOrigin.extracted } ∧
      assocLookup
          (close_and_submit_root (segment_from_extracted ctx 512) 1 4 {}).numeric_tags
          tags.internal.sampling_priority = some ((7 : Int) : Rat) :=
  ⟨by decide, by rfl,
   C9_extracted_priority_to_root
     [("x-datadog-trace-id", "123"), ("x-datadog-parent-id", "456"),
      ("x-datadog-sampling-priority", "7")]
     512 123 456 7 "123" "456" "7" 1 4 {}
     (by decide) (by rfl) (by decide) (by rfl) (by decide) (by rfl)⟩

/-- C1: when the serialized propagated-tags payload of a trace exceeds the
configured maximum header size, injection writes no `x-datadog-tags` entry
into the writer, and the local root span submitted to the collector carries
the tag `_dd.propagation_error` with value `inject_max_size`. -/
theorem C1_inject_max_size_propagation_error (seg : TraceSegment) (p : Int)
    (mech : Nat) (tid sid : Nat) (writer : List (String × String))
    (q : Int) (mech2 : Nat) (root : SpanData)
    (hw : assocLookup writer "x-datadog-tags" = none)
    (hover : seg.tags_header_size <
      (encode_tags (make_local_decision seg p mech).trace_tags).length) :
    assocLookup (inject_datadog seg p mech tid sid writer).writer "x-datadog-tags" = none ∧
    assocLookup
        (close_and_submit_root (inject_datadog seg p mech tid sid writer).segment
          q mech2 root).tags
        tags.internal.propagation_error = some "inject_max_size" := by
  have h0 := make_local_decision_header_size seg p mech
  have hcap : (make_local_decision seg p mech).tags_header_size <
      (encode_tags (make_local_decision seg p mech).trace_tags).length := by
    rw [h0]
    exact hover
  have hlen0 : ¬ (encode_tags (make_local_decision seg p mech).trace_tags).length = 0 := by
    omega
  obtain ⟨d, hd⟩ := Option.isSome_iff_exists.mp (make_local_decision_isSome seg p mech)
  constructor
  · simp only [inject_datadog, hd]
    rw [if_neg hlen0, if_pos hcap]
    cases ho : (make_local_decision seg p mech).origin <;>
      simp [ho, assocLookup_insertOrAssign, hw]
  · have hseg : (inject_datadog seg p mech tid sid writer).segment =
        { make_local_decision seg p mech with propagation_error := some "inject_max_size" } := by
      simp only [inject_datadog, hd]
      rw [if_neg hlen0, if_pos hcap]
    rw [hseg, close_and_submit_root,
        make_local_decision_decided _ d q mech2 (by simpa using hd)]
    cases ho : (make_local_decision seg p mech).origin <;>
      simp [finalize_root_span, ho, assocLookup_insertOrAssign_self]

theorem C1_inject_max_size_propagation_error_witness :
    assocLookup ([] : List (String × String)) "x-datadog-tags" = none ∧
    (({ trace_tags := [("_dd.p.key", "0123456789")], tags_header_size := 7 }
        : TraceSegment).tags_header_size <
      (encode_tags (make_local_decision
        { trace_tags := [("_dd.p.key", "0123456789")], tags_header_size := 7 }
        1 3).trace_tags).length) ∧
    assocLookup (inject_datadog
        { trace_tags := [("_dd.p.key", "0123456789")], tags_header_size := 7 }
        1 3 123 456 []).writer "x-datadog-tags" = none ∧
    assocLookup
        (close_and_submit_root (inject_datadog
          { trace_tags := [("_dd.p.key", "0123456789")], tags_header_size := 7 }
          1 3 123 456 []).segment 1 3 {}).tags
        tags.internal.propagation_error = some "inject_max_size" := by
  have h := C1_inject_max_size_propagation_error
    { trace_tags := [("_dd.p.key", "0123456789")], tags_header_size := 7 }
    1 3 123 456 [] 1 3 {} (by rfl) (by decide)
  exact ⟨by rfl, by decide, h.1, h.2⟩

end DdTrace
